import Mathlib

/-
  Verification of the memoizing lazy-evaluation cache (`Cacher`) from
  src/closures-13/src/main.rs.

  The Rust source defines

    struct Cacher<T> where T: Fn(u32) -> u32 {
        calculation: T,
        value: Option<u32>,
    }

    fn new(calculation: T) -> Cacher<T> {
        Cacher { calculation, value: None }
    }

    fn value(&mut self, arg: u32) -> u32 {
        match self.value {
            Some(v) => v,
            None => {
                let v = (self.calculation)(arg);
                self.value = Some(v);
                v
            },
        }
    }

  The embedding below represents `u32` values as `Nat` (the `Cacher` itself
  performs no arithmetic on them; wrapping arithmetic of concrete closures is
  written with an explicit `% 4294967296` where it appears).  The mutable
  method `value` becomes a pure function returning the result together with
  the updated state.  To make "the calculation is invoked" observable, an
  instrumented variant also returns the list of arguments on which the stored
  calculation was invoked during the call.
-/

/-- The `Cacher` struct: a stored closure and a single optional cached
result, exactly as in the Rust source. -/
structure Cacher where
  calculation : Nat → Nat
  value : Option Nat

/-- Embedding of `Cacher::new`: stores the calculation and starts with an
empty (`None`) cache slot. -/
def Cacher.new (calculation : Nat → Nat) : Cacher :=
  { calculation := calculation, value := none }

/-- `Cacher::new` instrumented with the list of arguments on which
`calculation` is invoked while constructing: the Rust body is a plain struct
literal containing no call to `calculation`, so the log is empty. -/
def Cacher.newT (calculation : Nat → Nat) : Cacher × List Nat :=
  ({ calculation := calculation, value := none }, [])

/-- Embedding of `Cacher::value` (the Rust field and method share the name
`value`; Lean forbids that, hence `value'`).  Returns the result and the
updated state. -/
def Cacher.value' (c : Cacher) (arg : Nat) : Nat × Cacher :=
  match c.value with
  | some v => (v, c)
  | none =>
    let v := c.calculation arg
    (v, { c with value := some v })

/-- `Cacher::value` instrumented with the list of arguments on which the
stored `calculation` is invoked during this call: `[]` on a cache hit,
`[arg]` on a miss. -/
def Cacher.valueT (c : Cacher) (arg : Nat) : Nat × Cacher × List Nat :=
  match c.value with
  | some v => (v, c, [])
  | none =>
    let v := c.calculation arg
    (v, { c with value := some v }, [arg])

/-- Run a sequence of `value` calls from a given state, collecting the list
of returned results, the final state, and the concatenated invocation log. -/
def runCalls (c : Cacher) : List Nat → List Nat × Cacher × List Nat
  | [] => ([], c, [])
  | a :: rest =>
    let s := c.valueT a
    let t := runCalls s.2.1 rest
    (s.1 :: t.1, t.2.1, s.2.2 ++ t.2.2)

/-- Number of entries held by the single-slot cache: 0 when the slot is
`none`, 1 when it is `some`. -/
def slotCount : Option Nat → Nat
  | none => 0
  | some _ => 1

/-
  Fallible variant.  The closure type `Fn(u32) -> u32` has no error channel:
  in Rust a failing computation means a panic inside the call
  `(self.calculation)(arg)` on line 93.  A panic unwinds before the
  assignment `self.value = Some(v)` on line 94 runs, so the cache slot is
  left unchanged and the failure propagates to the caller of `value`.  The
  embedding models a panicking computation by `calculation : Nat → Option
  Nat` with `none` standing for the panic, and `value` consequently returns
  `none` (propagated failure) together with the unchanged state.
-/

/-- `Cacher` whose computation may fail (panic), modelled by `Option`. -/
structure CacherE where
  calculation : Nat → Option Nat
  value : Option Nat

/-- `Cacher::new` for the fallible variant. -/
def CacherE.new (calculation : Nat → Option Nat) : CacherE :=
  { calculation := calculation, value := none }

/-- `Cacher::value` for the fallible variant, instrumented with the
invocation log.  On a hit the stored value is returned without invoking.
On a miss the calculation is invoked; if it panics (`none`) the failure
propagates and the state is unchanged (the store on line 94 never runs);
otherwise the result is stored and returned. -/
def CacherE.valueE (c : CacherE) (arg : Nat) :
    Option Nat × CacherE × List Nat :=
  match c.value with
  | some v => (some v, c, [])
  | none =>
    match c.calculation arg with
    | none => (none, c, [arg])
    | some v => (some v, { c with value := some v }, [arg])

/-- The instrumented call agrees with the plain embedding of
`Cacher::value` on result and state. -/
theorem valueT_agrees (c : Cacher) (arg : Nat) :
    ((c.valueT arg).1, (c.valueT arg).2.1) = c.value' arg := by
  unfold Cacher.valueT Cacher.value'
  cases c.value <;> rfl

/-- On a cache hit the call returns the stored value, leaves the state
unchanged and invokes nothing. -/
theorem valueT_cached (c : Cacher) (arg v : Nat) (h : c.value = some v) :
    c.valueT arg = (v, c, []) := by
  unfold Cacher.valueT
  rw [h]

/-- On a cache miss the call computes, stores and returns
`calculation arg`, invoking it once. -/
theorem valueT_miss (c : Cacher) (arg : Nat) (h : c.value = none) :
    c.valueT arg = (c.calculation arg,
      { c with value := some (c.calculation arg) }, [arg]) := by
  unfold Cacher.valueT
  rw [h]

/-- After any call, the cache slot holds exactly the returned result. -/
theorem valueT_state_value (c : Cacher) (arg : Nat) :
    (c.valueT arg).2.1.value = some (c.valueT arg).1 := by
  unfold Cacher.valueT
  cases h : c.value <;> simp [h]

/-- From a state whose slot already holds `v`, any sequence of calls
returns `v` every time, changes nothing and invokes nothing. -/
theorem runCalls_cached (args : List Nat) (c : Cacher) (v : Nat)
    (h : c.value = some v) :
    runCalls c args = (List.replicate args.length v, c, []) := by
  induction args with
  | nil => rfl
  | cons a rest ih =>
    simp only [runCalls, valueT_cached c a v h, ih]
    rfl

/-- A single call never changes the stored calculation. -/
theorem valueT_calculation (c : Cacher) (arg : Nat) :
    (c.valueT arg).2.1.calculation = c.calculation := by
  unfold Cacher.valueT
  cases h : c.value <;> simp [h]

/-- A sequence of calls never changes the stored calculation. -/
theorem runCalls_calculation (args : List Nat) (c : Cacher) :
    (runCalls c args).2.1.calculation = c.calculation := by
  induction args generalizing c with
  | nil => rfl
  | cons a rest ih =>
    simp only [runCalls]
    rw [ih, valueT_calculation]

/-- A panicking computation propagates the failure, leaves the state
unchanged, and the invocation log records the one (failed) invocation. -/
theorem valueE_fail (c : CacherE) (k : Nat) (h1 : c.value = none)
    (h2 : c.calculation k = none) :
    c.valueE k = (none, c, [k]) := by
  simp [CacherE.valueE, h1, h2]

/-- C1: the claim says that querying a second distinct key still invokes the
computation for that second key (at-most-once *per key*).  The code violates
this: with `f(x) = x * 2` (u32 arithmetic), calling `value(3)` then
`value(4)` invokes the calculation only on 3 — the log is `[3]`, so the
calculation is invoked 0 times for the key 4 even though 4 was queried once
and the first invocation (for 3) succeeded — and `value(4)` returns the
stale 6. -/
theorem c1_code_at_failing_input :
    (runCalls (Cacher.new (fun x => x * 2 % 4294967296)) [3, 4]).2.2 = [3] ∧
    (runCalls (Cacher.new (fun x => x * 2 % 4294967296)) [3, 4]).1 = [6, 6] :=
  ⟨rfl, rfl⟩

/-- C2: the claim (spec scenario 2) expects `value(3)` then `value(4)` to
return 6 then 8 with 2 invocations.  The code at that exact input returns
`[6, 6]` and performs exactly 1 invocation. -/
theorem c2_code_at_failing_input :
    (runCalls (Cacher.new (fun x => x * 2 % 4294967296)) [3, 4]).1 = [6, 6] ∧
    (runCalls (Cacher.new (fun x => x * 2 % 4294967296)) [3, 4]).2.2.length
      = 1 :=
  ⟨rfl, rfl⟩

/-- C3: the claim says `value(k1)` does not affect what the cache returns
for `k2 ≠ k1`.  The code violates this: on a fresh evaluator with
`f(x) = x * 2`, `value(4)` returns 8 and invokes the calculation on 4; but
after first calling `value(3)`, the very same call `value(4)` returns 6 and
invokes nothing. -/
theorem c3_code_at_failing_input :
    ((Cacher.new (fun x => x * 2 % 4294967296)).valueT 4).1 = 8 ∧
    ((Cacher.new (fun x => x * 2 % 4294967296)).valueT 4).2.2 = [4] ∧
    (((Cacher.new (fun x => x * 2 % 4294967296)).valueT 3).2.1.valueT 4).1
      = 6 ∧
    (((Cacher.new (fun x => x * 2 % 4294967296)).valueT 3).2.1.valueT 4).2.2
      = [] :=
  ⟨rfl, rfl, rfl, rfl⟩

/-- C4: in the single-field introductory cache, after the first call
`value(a)` (which always succeeds, the closure being total), every later
call `value(b)` for any key `b` returns the first-ever computed result
`f a`, and the calculation is never invoked again. -/
theorem c4_single_slot_returns_first_result (f : Nat → Nat) (a : Nat)
    (args : List Nat) :
    ((Cacher.new f).valueT a).1 = f a ∧
    (runCalls ((Cacher.new f).valueT a).2.1 args).1 =
      List.replicate args.length (f a) ∧
    (runCalls ((Cacher.new f).valueT a).2.1 args).2.2 = [] := by
  have hs : ((Cacher.new f).valueT a).2.1.value = some (f a) := rfl
  have h := runCalls_cached args ((Cacher.new f).valueT a).2.1 (f a) hs
  exact ⟨rfl, by rw [h], by rw [h]⟩

/-- C5: from any evaluator state, once `value(k)` has been called and
returned some result, every later call `value(k)` returns that same result
and the calculation is not re-invoked for `k`. -/
theorem c5_value_stability (c : Cacher) (k : Nat) (args : List Nat) :
    (∀ i : Nat, args[i]? = some k →
      (runCalls (c.valueT k).2.1 args).1[i]? = some (c.valueT k).1) ∧
    (runCalls (c.valueT k).2.1 args).2.2.count k = 0 := by
  have hs := valueT_state_value c k
  have h := runCalls_cached args (c.valueT k).2.1 ((c.valueT k).1) hs
  rw [h]
  refine ⟨fun i hi => ?_, rfl⟩
  have hlen : i < args.length := by
    by_contra hge
    rw [List.getElem?_eq_none (Nat.le_of_not_lt hge)] at hi
    exact Option.noConfusion hi
  simp [List.getElem?_replicate, hlen]

/-- Witness for C5 at the concrete evaluator `f(x) = x + 1`, key 7,
later calls `[9, 7]`: the call at index 1 uses key 7 and returns the first
result, and the log of the later run never invokes for 7. -/
theorem c5_value_stability_witness :
    (runCalls ((Cacher.new (fun x => x + 1)).valueT 7).2.1 [9, 7]).1[1]?
      = some ((Cacher.new (fun x => x + 1)).valueT 7).1 ∧
    (runCalls ((Cacher.new (fun x => x + 1)).valueT 7).2.1 [9, 7]).2.2.count 7
      = 0 :=
  ⟨(c5_value_stability (Cacher.new (fun x => x + 1)) 7 [9, 7]).1 1 rfl,
   (c5_value_stability (Cacher.new (fun x => x + 1)) 7 [9, 7]).2⟩

/-- C6: constructing the evaluator performs zero invocations of the
computation and yields an empty cache, with the supplied computation
stored. -/
theorem c6_lazy_construction (f : Nat → Nat) :
    (Cacher.newT f).2 = [] ∧ (Cacher.newT f).1.value = none ∧
    (Cacher.newT f).1.calculation = f :=
  ⟨rfl, rfl, rfl⟩

/-- C7: a call inserts at most one new cache entry, and once a cached value
exists it is never overwritten: any single call and any later sequence of
calls leave the stored value unchanged. -/
theorem c7_no_overwrite (c c2 : Cacher) (arg : Nat) (args : List Nat)
    (v : Nat) (h : c.value = some v) :
    slotCount (c2.valueT arg).2.1.value ≤ slotCount c2.value + 1 ∧
    (c.valueT arg).2.1.value = some v ∧
    (runCalls c args).2.1.value = some v := by
  refine ⟨?_, by rw [valueT_cached c arg v h]; exact h,
    by rw [runCalls_cached args c v h]; exact h⟩
  unfold Cacher.valueT
  cases h2 : c2.value <;> simp [h2, slotCount]

/-- Witness for C7: a populated evaluator (slot holds 5) and a fresh one. -/
theorem c7_no_overwrite_witness :
    slotCount ((Cacher.new (fun x => x)).valueT 0).2.1.value ≤
      slotCount (Cacher.new (fun x => x)).value + 1 ∧
    (({ calculation := fun x => x, value := some 5 } : Cacher).valueT 0).2.1.value
      = some 5 ∧
    (runCalls { calculation := fun x => x, value := some 5 } [1, 2]).2.1.value
      = some 5 :=
  c7_no_overwrite { calculation := fun x => x, value := some 5 }
    (Cacher.new (fun x => x)) 0 [1, 2] 5 rfl

/-- C8: if the computation panics on `value(k)` (modelled by `none`), the
failure propagates to the caller, the cache is left unchanged, the failed
attempt is not memoized, and a subsequent `value(k)` invokes the
computation again. -/
theorem c8_failure_not_memoized (c : CacherE) (k : Nat)
    (h1 : c.value = none) (h2 : c.calculation k = none) :
    (c.valueE k).1 = none ∧
    (c.valueE k).2.1 = c ∧
    (c.valueE k).2.2 = [k] ∧
    ((c.valueE k).2.1.valueE k).2.2 = [k] := by
  have hv := valueE_fail c k h1 h2
  refine ⟨by rw [hv], by rw [hv], by rw [hv], ?_⟩
  rw [hv]
  show (c.valueE k).2.2 = [k]
  rw [hv]

/-- Witness for C8 at the spec's scenario 3: a computation that fails
exactly on key 0, queried with 0 twice. -/
theorem c8_failure_not_memoized_witness :
    ((CacherE.new (fun x => if x = 0 then none else some x)).valueE 0).1
      = none ∧
    ((CacherE.new (fun x => if x = 0 then none else some x)).valueE 0).2.1
      = CacherE.new (fun x => if x = 0 then none else some x) ∧
    ((CacherE.new (fun x => if x = 0 then none else some x)).valueE 0).2.2
      = [0] ∧
    (((CacherE.new (fun x => if x = 0 then none else some x)).valueE
      0).2.1.valueE 0).2.2 = [0] :=
  c8_failure_not_memoized
    (CacherE.new (fun x => if x = 0 then none else some x)) 0 rfl rfl

/-- C9: the computation is stored once at construction and never replaced:
neither a single call to `value` nor any sequence of calls changes the
`calculation` field. -/
theorem c9_calculation_never_replaced (f : Nat → Nat) (c : Cacher)
    (arg : Nat) (args : List Nat) :
    (Cacher.new f).calculation = f ∧
    (c.valueT arg).2.1.calculation = c.calculation ∧
    (runCalls c args).2.1.calculation = c.calculation :=
  ⟨rfl, valueT_calculation c arg, runCalls_calculation args c⟩

/-- C10: over any finite sequence of `value` calls on a fresh `Cacher`,
the stored calculation is invoked at most once in total, however many
distinct arguments are queried. -/
theorem c10_at_most_one_invocation_total (f : Nat → Nat)
    (args : List Nat) :
    (runCalls (Cacher.new f) args).2.2.length ≤ 1 := by
  cases args with
  | nil => simp [runCalls]
  | cons a rest =>
    have h1 : (Cacher.new f).valueT a =
        (f a, { calculation := f, value := some (f a) }, [a]) := rfl
    have h2 := runCalls_cached rest
      { calculation := f, value := some (f a) } (f a) rfl
    simp [runCalls, h1, h2]
